import Mathlib

/-!
Verification of the kr-glossary contribution-review automation scripts.

Each Python script under `.github/scripts/` is shallowly embedded as pure
Lean functions: network reads (issue info, comment lists, configuration
files, dataset snapshots) become explicit parameters, and network writes
(labels, comments) become explicit state transitions.  Python regular
expressions over fixed patterns are translated into executable character
-level matchers with the same boolean/capture semantics on the inputs the
scripts see.  All text processing is done on `List Char` (`String.data`)
with structural recursion so that every definition evaluates inside the
kernel; Python `str.lower`/`str.strip` are rendered by ASCII
lowering/whitespace trimming, which agree with Python on the ASCII and
Korean data these scripts handle.
-/

namespace KrGlossary

/-! ### Character-list string primitives -/

/-- Python `str.lower` (ASCII range; identity on Korean text). -/
def lowerL (s : List Char) : List Char := s.map Char.toLower

/-- Python `str.split('\n')` / the line structure that `re` patterns see. -/
def splitLinesL : List Char → List (List Char)
  | [] => [[]]
  | c :: cs =>
    let r := splitLinesL cs
    if c = '\n' then [] :: r
    else
      match r with
      | [] => [[c]]
      | h :: t => (c :: h) :: t

/-- Python `str.strip` (leading and trailing whitespace removed). -/
def stripL (s : List Char) : List Char :=
  ((s.dropWhile Char.isWhitespace).reverse.dropWhile Char.isWhitespace).reverse

/-- `pat.isPrefixOf s` on raw character lists. -/
def isPrefixL (pat s : List Char) : Bool :=
  List.isPrefixOf pat s

/-- Does `pat` occur as a contiguous substring of `s`? (Python `pat in s`,
`re.search` of a literal pattern.) -/
def containsL (s pat : List Char) : Bool :=
  match s with
  | [] => isPrefixL pat []
  | _ :: rest => isPrefixL pat s || containsL rest pat

/-- Python `pat in s` on strings. -/
def containsStr (s pat : String) : Bool :=
  containsL s.data pat.data

/-- Leftmost occurrence of `pat` in `s`; returns the remainder after the
match (for pure existence of an ordered sequence of literal parts the
leftmost choice is complete, so no backtracking is needed). -/
def firstMatchTail (pat : List Char) : List Char → Option (List Char)
  | [] => if pat.isEmpty then some [] else none
  | c :: cs =>
    if isPrefixL pat (c :: cs) then some (List.drop pat.length (c :: cs))
    else firstMatchTail pat cs

/-- `re.search` of `p₁.*p₂.*…` restricted to a single line (without
`re.DOTALL`, `.` does not match a newline, so all parts must sit on one
line, in order). -/
def matchSeq : List (List Char) → List Char → Bool
  | [], _ => true
  | p :: ps, s =>
    match firstMatchTail p s with
    | some rest => matchSeq ps rest
    | none => false

/-- `re.search` of `a\s*b` where `b` does not start with whitespace: an
occurrence of `a`, a whitespace run, then `b`.  `\s` matches newlines, so
this is checked on the whole text. -/
def hasLitWsLit (a b : List Char) : List Char → Bool
  | [] => false
  | c :: cs =>
    (isPrefixL a (c :: cs) &&
      isPrefixL b ((List.drop a.length (c :: cs)).dropWhile Char.isWhitespace)) ||
    hasLitWsLit a b cs

/-- A search pattern as used by `auto-label-issues.py`: either literal
parts joined by `.*` (same-line), or two literals joined by `\s*`. -/
inductive Pat
  | parts (ps : List String)
  | litWsLit (a b : String)

/-- `re.search(pattern, content)` for the pattern forms above. -/
def searchPat (content : List Char) : Pat → Bool
  | .parts ps => (splitLinesL content).any fun line => matchSeq (ps.map String.data) line
  | .litWsLit a b => hasLitWsLit a.data b.data content

/-! ### `auto-label-issues.py` — `IssueAutoLabeler.detect_issue_type` -/

def term_patterns : List Pat :=
  [.parts ["영어 용어"], .parts ["한국어 번역"], .parts ["term", "translation"],
   .litWsLit "neural" "network", .parts ["기여 유형", "새로운 용어"],
   .parts ["기여 유형", "용어", "추가"], .parts ["새로운", "용어", "추가"],
   .parts ["용어", "등록"], .parts ["term", "addition"], .parts ["new", "term"]]

def contributor_patterns : List Pat :=
  [.parts ["기여자", "추가"], .parts ["contributor", "addition"],
   .parts ["github", "사용자명"], .parts ["새로운", "기여자"]]

def organization_patterns : List Pat :=
  [.parts ["조직", "추가"], .parts ["organization", "addition"],
   .parts ["회사", "등록"], .parts ["기관", "추가"]]

def admin_patterns : List Pat :=
  [.parts ["관리자", "추가"], .parts ["admin", "addition"], .parts ["권한", "부여"]]

/-- The combined lowered text `(issue_body + " " + issue_title).lower()`. -/
def labelContent (issue_body issue_title : String) : List Char :=
  lowerL (issue_body.data ++ ' ' :: issue_title.data)

/-- The four contribution-type pattern groups, in source order. -/
def typeLabels (content : List Char) : List String :=
  (if term_patterns.any (searchPat content) then
    ["term-addition", "type:term-addition"] else []) ++
  (if contributor_patterns.any (searchPat content) then
    ["contributor-addition", "type:contributor-addition"] else []) ++
  (if organization_patterns.any (searchPat content) then
    ["organization-addition", "type:organization-addition"] else []) ++
  (if admin_patterns.any (searchPat content) then
    ["admin-addition", "type:admin-addition"] else [])

/-- The generic-label fallback used when no contribution type matched. -/
def fallbackLabel (content : List Char) : List String :=
  if containsL content "bug".data || containsL content "오류".data ||
      containsL content "error".data then
    ["bug"]
  else if containsL content "enhancement".data || containsL content "개선".data ||
      containsL content "향상".data then
    ["enhancement"]
  else if containsL content "feature".data || containsL content "기능".data then
    ["feature"]
  else
    ["needs-triage"]

def detect_issue_type (issue_body issue_title : String) : List String :=
  let content := labelContent issue_body issue_title
  let labels := typeLabels content
  if labels.isEmpty then fallbackLabel content else labels

/-! ### Shared configuration model (`.github/config/admins.json`) -/

/-- One entry of the `admins` mapping.  Optional fields model Python
`dict.get` absence. -/
structure AdminInfo where
  role : Option String
  specializations : List String
  active : Option Bool := none
  name : Option String := none
deriving DecidableEq

/-- The `auto_assignment` section of the configuration. -/
structure AutoAssignment where
  max_assignees : Option Nat := none
  assignment_strategy : Option String := none
  prefer_specialization : Option Bool := none
deriving DecidableEq

/-- One entry of the `approval_rules` mapping. -/
structure ApprovalRule where
  min_approvals : Option Nat := none
  required_roles : Option (List String) := none
  specialization_match : Option Bool := none
deriving DecidableEq

/-- The configuration document; dicts become ordered association lists. -/
structure AdminConfig where
  admins : List (String × AdminInfo)
  approval_rules : List (String × ApprovalRule)
  specialization_mapping : List (String × String) := []
  auto_assignment : Option AutoAssignment := none
deriving DecidableEq

/-- Python `d.get(key)` on an association list. -/
def alistGet {α : Type} (l : List (String × α)) (k : String) : Option α :=
  (l.find? fun p => p.1 == k).map (·.2)

/-- Python truthiness of an optional string (`None` and `''` are falsy). -/
def pyTruthy : Option String → Bool
  | none => false
  | some s => !s.isEmpty

/-! ### `check-approval-enhanced.py` — `AdminApprovalChecker` -/

/-- An issue comment as the scripts see it (`user.login`, `body`,
`created_at`). -/
structure Comment where
  author : String
  body : String
  created_at : Option String := none
deriving DecidableEq

/-- `s = a ++ ws-run ++ b` where the run may be empty (`a\s*b` anchored
over the whole stripped comment; `b` does not start with whitespace). -/
def eqWsJoin (a b s : List Char) : Bool :=
  isPrefixL a s && (List.drop a.length s).dropWhile Char.isWhitespace == b

/-- `^\s*needs?\s+work\s*$` on the stripped comment. -/
def eqNeedsWork (s : List Char) : Bool :=
  ["need", "needs"].any fun w =>
    isPrefixL w.data s &&
      (let r := List.drop w.data.length s
       !(r.takeWhile Char.isWhitespace).isEmpty &&
         r.dropWhile Char.isWhitespace == "work".data)

/-- `AdminApprovalChecker.is_approval_comment`: the lowered, stripped
comment must match one of the anchored approval patterns. -/
def is_approval_comment (body : String) : Bool :=
  let s := stripL (lowerL body.data)
  s == "승인".data || s == "approve".data || s == "approved".data ||
  s == "lgtm".data || s == "looks good to me".data ||
  eqWsJoin "✅".data "승인".data s || s == "/approve".data ||
  eqWsJoin "👍".data "승인".data s

/-- `AdminApprovalChecker.is_rejection_comment`. -/
def is_rejection_comment (body : String) : Bool :=
  let s := stripL (lowerL body.data)
  s == "거부".data || s == "reject".data || s == "rejected".data ||
  s == "반려".data || eqWsJoin "❌".data "반려".data s ||
  s == "/reject".data || eqNeedsWork s ||
  eqWsJoin "변경".data "요청".data s

/-- The identity `label → category` table shared by the enhanced scripts. -/
def labelCategoryKeys : List String :=
  ["term-addition", "term-modification", "contributor-addition",
   "admin-addition", "organization-addition"]

/-- `AdminApprovalChecker.get_issue_category`: first label found in the
table (the table maps each key to itself). -/
def get_issue_category (issue_labels : List String) : Option String :=
  issue_labels.find? fun l => labelCategoryKeys.contains l

/-- Leftmost `- ` in a line that is followed by at least one character;
returns the rest of the line (the `.*?- (.+)` capture). -/
def captureAfterDash : List Char → Option (List Char)
  | [] => none
  | c :: cs =>
    if isPrefixL ['-', ' '] (c :: cs) && !((c :: cs).drop 2).isEmpty then
      some ((c :: cs).drop 2)
    else captureAfterDash cs

/-- `re.search(r'카테고리.*?\n.*?- (.+)', body, re.MULTILINE)`: first line
containing `카테고리` whose successor line yields a dash capture (without
`re.DOTALL`, `.` stays within a line, and backtracking moves on to later
lines when a capture fails). -/
def findCategoryLine : List (List Char) → Option (List Char)
  | [] => none
  | _ :: [] => none
  | l :: next :: rest =>
    if containsL l "카테고리".data then
      match captureAfterDash next with
      | some v => some v
      | none => findCategoryLine (next :: rest)
    else findCategoryLine (next :: rest)

/-- The free-text category → domain-tag table in
`AdminApprovalChecker.get_issue_specialization`. -/
def category_mapping : List (String × String) :=
  [("ML (Machine Learning)", "ML"), ("DL (Deep Learning)", "DL"),
   ("NLP (Natural Language Processing)", "NLP"), ("CV (Computer Vision)", "CV"),
   ("RL (Reinforcement Learning)", "RL"), ("GAI (Generative AI)", "GAI")]

def get_issue_specialization (issue_body : String) : Option String :=
  match findCategoryLine (splitLinesL issue_body.data) with
  | some v => alistGet category_mapping (String.mk (stripL v))
  | none => none

def is_admin (username : String) (cfg : AdminConfig) : Bool :=
  (alistGet cfg.admins username).isSome

def get_admin_role (username : String) (cfg : AdminConfig) : Option String :=
  (alistGet cfg.admins username).bind (·.role)

def has_specialization (username required : String) (cfg : AdminConfig) : Bool :=
  match alistGet cfg.admins username with
  | none => false
  | some info =>
    info.specializations.contains required || info.specializations.contains "전체 영역"

/-- One element of `approval_details` / `rejection_details`. -/
structure ApprovalDetail where
  author : String
  role : Option String
  specialization : Option String := none
  comment : String
  created_at : Option String := none
deriving DecidableEq

/-- The result dict of `check_approval_status`. -/
structure ApprovalResult where
  approved : Bool
  category : String
  specialization : Option String
  min_approvals : Nat
  current_approvals : Nat
  rejections : Nat
  approval_details : List ApprovalDetail
  rejection_details : List ApprovalDetail
deriving DecidableEq

/-- The per-comment filter/classify step of the aggregation loop in
`check_approval_status` (lines 229-259). -/
def approvalStep (cfg : AdminConfig) (required_roles : List String)
    (specialization_match : Bool) (specialization : Option String)
    (acc : List ApprovalDetail × List ApprovalDetail) (c : Comment) :
    List ApprovalDetail × List ApprovalDetail :=
  if !is_admin c.author cfg then acc
  else
    let admin_role := get_admin_role c.author cfg
    if !(match admin_role with
         | some r => required_roles.contains r
         | none => false) then acc
    else if specialization_match && pyTruthy specialization &&
        !has_specialization c.author (specialization.getD "") cfg then acc
    else if is_approval_comment c.body then
      (acc.1 ++ [{ author := c.author, role := admin_role,
                   specialization := specialization, comment := c.body,
                   created_at := c.created_at }], acc.2)
    else if is_rejection_comment c.body then
      (acc.1, acc.2 ++ [{ author := c.author, role := admin_role,
                          comment := c.body, created_at := c.created_at }])
    else acc

/-- `AdminApprovalChecker.check_approval_status`, with the issue (labels,
body) and its comment history supplied instead of fetched. -/
def check_approval_status (cfg : AdminConfig) (issue_labels : List String)
    (issue_body : String) (comments : List Comment) :
    Except String ApprovalResult :=
  match get_issue_category issue_labels with
  | none => .error "이슈 카테고리를 식별할 수 없음"
  | some category =>
    let specialization := get_issue_specialization issue_body
    let rules := alistGet cfg.approval_rules category
    let min_approvals := (rules.bind (·.min_approvals)).getD 1
    let required_roles := (rules.bind (·.required_roles)).getD ["reviewer", "maintainer", "owner"]
    let specialization_match := (rules.bind (·.specialization_match)).getD false
    let acc := comments.foldl
      (approvalStep cfg required_roles specialization_match specialization) ([], [])
    let is_approved := decide (min_approvals ≤ acc.1.length) && acc.2.length == 0
    .ok { approved := is_approved
          category := category
          specialization := specialization
          min_approvals := min_approvals
          current_approvals := acc.1.length
          rejections := acc.2.length
          approval_details := acc.1
          rejection_details := acc.2 }

/-! ### `check-approval.py` — legacy `ApprovalChecker.count_approvals` -/

/-- `ApprovalChecker.is_approval_comment`: unanchored `re.search` of the
legacy keyword patterns, case-insensitive over the whole body. -/
def legacy_is_approval_comment (body : String) : Bool :=
  let b := lowerL body.data
  hasLitWsLit "✅".data "승인".data b || containsL b "/approve".data ||
  containsL b "lgtm".data || containsL b "승인합니다".data ||
  containsL b "approved".data || containsL b "👍".data

/-- Python `set.add` modelled on a duplicate-free list. -/
def insertUnique (s : List String) (a : String) : List String :=
  if s.contains a then s else s ++ [a]

/-- The approval author set built by `count_approvals` (line 75:
`approvals = set()` — 중복 승인 방지). -/
def approval_authors (admins : List String) (comments : List Comment) : List String :=
  comments.foldl
    (fun s c =>
      if admins.contains c.author && legacy_is_approval_comment c.body then
        insertUnique s c.author
      else s)
    []

/-- `ApprovalChecker.count_approvals`: the cardinality of the author set. -/
def count_approvals (admins : List String) (comments : List Comment) : Nat :=
  (approval_authors admins comments).length

/-! ### `validate-term-issue-enhanced.py` — `TermIssueValidator`

The field-extraction regexes run under `re.MULTILINE | re.DOTALL`, so `.`
also matches newlines.  The combinators below reproduce the backtracking
order of the `re` engine for the pattern shapes that occur: alternatives
left-first, lazy quantifiers shortest-first, greedy quantifiers
longest-first, search positions leftmost-first. -/

/-- Lazy `.*?` under DOTALL: try the continuation consuming 0, 1, 2, …
characters, first success wins. -/
def tryMin {α : Type} (step : List Char → Option α) : List Char → Option α
  | [] => step []
  | c :: cs => (step (c :: cs)).orElse fun _ => tryMin step cs

/-- Greedy `\s*`: consume the longest whitespace run first, backtracking
to shorter runs. -/
def tryMaxWs {α : Type} (step : List Char → Option α) : List Char → Option α
  | [] => step []
  | c :: cs =>
    if c.isWhitespace then (tryMaxWs step cs).orElse fun _ => step (c :: cs)
    else step (c :: cs)

/-- `\s*\n` then continuation. -/
def wsNl {α : Type} (cont : List Char → Option α) (s : List Char) : Option α :=
  tryMaxWs (fun r => match r with | '\n' :: r2 => cont r2 | _ => none) s

/-- `.*?\n` then continuation. -/
def lazyNl {α : Type} (cont : List Char → Option α) : List Char → Option α :=
  tryMin fun r => match r with | '\n' :: r2 => cont r2 | _ => none

/-- `(.+?)(?:\n|$)` — shortest non-empty capture whose terminator is a
newline or the end of input. -/
def capLazyNl (takenRev : List Char) : List Char → Option (List Char)
  | [] => some takenRev.reverse
  | '\n' :: _ => some takenRev.reverse
  | c :: cs => capLazyNl (c :: takenRev) cs

def capA : List Char → Option (List Char)
  | [] => none
  | c :: cs => capLazyNl [c] cs

/-- `(.+?)(?:\n\n|\Z)` — shortest non-empty capture terminated by a blank
line or the absolute end of input. -/
def capLazyNlNl (takenRev : List Char) : List Char → Option (List Char)
  | [] => some takenRev.reverse
  | '\n' :: '\n' :: _ => some takenRev.reverse
  | c :: cs => capLazyNlNl (c :: takenRev) cs

def capC : List Char → Option (List Char)
  | [] => none
  | c :: cs => capLazyNlNl [c] cs

/-- `.*?- (.+)` — leftmost `- ` with a non-empty greedy capture running to
the end of input (DOTALL). -/
def capDash : List Char → Option (List Char) :=
  tryMin fun r =>
    if isPrefixL ['-', ' '] r then
      let rest := r.drop 2
      if rest.isEmpty then none else some rest
    else none

/-- `re.search(header…, body)`: try every occurrence of the literal
header, leftmost first, running the continuation on the remainder. -/
def scanSearch {α : Type} (header : List Char) (cont : List Char → Option α) :
    List Char → Option α
  | [] => if header.isEmpty then cont [] else none
  | c :: cs =>
    (if isPrefixL header (c :: cs) then cont (List.drop header.length (c :: cs))
     else none).orElse fun _ => scanSearch header cont cs

/-- `r'H\s*\n.*?\n(.+?)(?:\n|$)'` — single-line field value. -/
def searchShapeLine (header : String) (body : List Char) : Option (List Char) :=
  scanSearch header.data (wsNl (lazyNl capA)) body

/-- `r'H\s*\n.*?\n(.+?)(?:\n\n|\Z)'` — paragraph field value. -/
def searchShapePara (header : String) (body : List Char) : Option (List Char) :=
  scanSearch header.data (wsNl (lazyNl capC)) body

/-- `r'H\s*\n.*?\n.*?- (.+)'` — dropdown selection value. -/
def searchShapeDash (header : String) (body : List Char) : Option (List Char) :=
  scanSearch header.data (wsNl (lazyNl capDash)) body

/-- `r'이메일.*?\n.*?\n(.+?)(?:\n|$)'` — the email field's looser shape. -/
def searchShapeEmail (header : String) (body : List Char) : Option (List Char) :=
  scanSearch header.data (lazyNl (lazyNl capA)) body

/-- `value.strip()` filtered by Python truthiness and the `_No response_`
placeholder (lines 54-56 of the script). -/
def mkField (cap : Option (List Char)) : Option String :=
  match cap with
  | none => none
  | some v =>
    let s := stripL v
    if !s.isEmpty && String.mk s != "_No response_" then some (String.mk s)
    else none

/-- `- \[x\]\s*(.+)` applied after a checked-marker occurrence: greedy
whitespace (which may cross one newline), then a non-empty capture to the
end of the line. -/
def itemCapture (r : List Char) : Option (List Char × List Char) :=
  tryMaxWs
    (fun r2 =>
      let line := r2.takeWhile (fun c => c ≠ '\n')
      if line.isEmpty then none else some (line, r2.drop line.length))
    r

/-- `re.findall(r'- \[x\]\s*(.+)', block)` — all checked-item labels,
non-overlapping, left to right (fuelled structural recursion). -/
def findallItemsAux (fuel : Nat) (s : List Char) : List (List Char) :=
  match fuel, s with
  | 0, _ => []
  | _, [] => []
  | fuel + 1, c :: cs =>
    if isPrefixL "- [x]".data (c :: cs) then
      match itemCapture ((c :: cs).drop 5) with
      | some (cap, rem) => cap :: findallItemsAux fuel rem
      | none => findallItemsAux fuel cs
    else findallItemsAux fuel cs

def findallItems (s : List Char) : List (List Char) :=
  findallItemsAux s.length s

/-- One unit of `(?:\s*- \[x\].*?\n)*`: whitespace, the checked marker,
then lazily through the next newline.  Returns the remainder. -/
def checkboxUnit (s : List Char) : Option (List Char) :=
  let s' := s.dropWhile Char.isWhitespace
  if isPrefixL "- [x]".data s' then
    let r := s'.drop 5
    let line := r.takeWhile (fun c => c ≠ '\n')
    match r.drop line.length with
    | '\n' :: rest => some rest
    | _ => none
  else none

/-- The greedy star over `checkboxUnit`, returning the block it consumed
(fuelled structural recursion; each unit consumes at least six
characters). -/
def checkboxStarAux (fuel : Nat) (s : List Char) : List Char :=
  match fuel with
  | 0 => []
  | fuel + 1 =>
    match checkboxUnit s with
    | some rest => s.take (s.length - rest.length) ++ checkboxStarAux fuel rest
    | none => []

/-- `r'HEADER.*?\n((?:\s*- \[x\].*?\n)*)'`: after the first newline
following the first header occurrence, the maximal run of checked-item
lines (possibly empty). -/
def checkboxBlock (header : String) (body : List Char) : Option (List Char) :=
  scanSearch header.data (lazyNl fun r => some (checkboxStarAux r.length r)) body

/-- The parsed field dictionary of `parse_issue_body` (absent keys are
`none`). -/
structure IssueData where
  contribution_type : Option String := none
  term_english : Option String := none
  term_korean : Option String := none
  category : Option String := none
  alternative_translations : Option String := none
  pronunciation : Option String := none
  definition_korean : Option String := none
  definition_english : Option String := none
  usage_examples : Option String := none
  references : Option String := none
  related_terms : Option String := none
  github_username : Option String := none
  email : Option String := none
  additional_notes : Option String := none
  manual_validation : Option (List String) := none
  agreement : Option (List String) := none
deriving DecidableEq

/-- `TermIssueValidator.parse_issue_body`: one regex per field over the
raw body, each value stripped and placeholder-filtered, plus the two
checkbox blocks.  Total for every input body by construction. -/
def parse_issue_body (issue_body : String) : IssueData :=
  let b := issue_body.data
  { contribution_type := mkField (searchShapeDash "기여 유형" b)
    term_english := mkField (searchShapeLine "영어 용어" b)
    term_korean := mkField (searchShapeLine "한국어 번역" b)
    category := mkField (searchShapeDash "카테고리" b)
    alternative_translations := mkField (searchShapeLine "대안 번역" b)
    pronunciation := mkField (searchShapeLine "발음" b)
    definition_korean := mkField (searchShapePara "한국어 정의" b)
    definition_english := mkField (searchShapePara "영어 정의" b)
    usage_examples := mkField (searchShapePara "사용 예시" b)
    references := mkField (searchShapePara "참고 문헌" b)
    related_terms := mkField (searchShapeLine "관련 용어" b)
    github_username := mkField (searchShapeLine "GitHub 사용자명" b)
    email := mkField (searchShapeEmail "이메일" b)
    additional_notes := mkField (searchShapePara "추가 설명" b)
    manual_validation :=
      (checkboxBlock "수동 검증 항목" b).map fun blk => (findallItems blk).map String.mk
    agreement :=
      (checkboxBlock "동의 사항" b).map fun blk => (findallItems blk).map String.mk }

/-- `field not in data or not data[field].strip()`. -/
def isBlankOpt : Option String → Bool
  | none => true
  | some s => (stripL s.data).isEmpty

/-- The `required_fields` table of `validate_required_fields` (field id →
human-readable label), in source order. -/
def requiredFieldSpec : List ((IssueData → Option String) × String) :=
  [(IssueData.contribution_type, "기여 유형"),
   (IssueData.term_english, "영어 용어"),
   (IssueData.term_korean, "한국어 번역"),
   (IssueData.category, "카테고리"),
   (IssueData.definition_korean, "한국어 정의"),
   (IssueData.definition_english, "영어 정의"),
   (IssueData.usage_examples, "사용 예시"),
   (IssueData.references, "참고 문헌"),
   (IssueData.github_username, "GitHub 사용자명")]

/-- `TermIssueValidator.validate_required_fields`: every absent-or-blank
required field contributes its label, in table order. -/
def validate_required_fields (data : IssueData) : List String :=
  requiredFieldSpec.foldl
    (fun acc p => if isBlankOpt (p.1 data) then acc ++ [p.2] else acc) []

/-- `^[A-Za-z0-9\s\-_()]+$` (the `\s` class also covers a trailing
newline, so plain all-characters suffices). -/
def validEnglishTerm (s : String) : Bool :=
  !s.data.isEmpty &&
    s.data.all fun c =>
      c.isAlpha || c.isDigit || c.isWhitespace || c = '-' || c = '_' ||
      c = '(' || c = ')'

def isAsciiAlnum (c : Char) : Bool := c.isAlpha || c.isDigit

/-- Python's `$` also matches just before one trailing newline. -/
def withDollar (core : List Char → Bool) (s : List Char) : Bool :=
  core s ||
    (match s.getLast? with
     | some '\n' => core s.dropLast
     | _ => false)

/-- `^[a-zA-Z0-9]([a-zA-Z0-9-]{0,37}[a-zA-Z0-9])?$`. -/
def usernameCore (u : List Char) : Bool :=
  match u with
  | [] => false
  | [c] => isAsciiAlnum c
  | c :: d :: rest =>
    isAsciiAlnum c && isAsciiAlnum ((d :: rest).getLast (by simp)) &&
      (d :: rest).dropLast.all (fun x => isAsciiAlnum x || x = '-') &&
      (d :: rest).dropLast.length ≤ 37

/-- Python `str.strip('@')`. -/
def stripAts (s : List Char) : List Char :=
  ((s.dropWhile (· = '@')).reverse.dropWhile (· = '@')).reverse

/-- First occurrence split: `some (before, after)` around the first `ch`. -/
def splitAtChar : Char → List Char → Option (List Char × List Char)
  | _, [] => none
  | ch, c :: cs =>
    if c = ch then some ([], cs)
    else (splitAtChar ch cs).map fun p => (c :: p.1, p.2)

/-- `^[a-zA-Z0-9._%+-]+@[a-zA-Z0-9.-]+\.[a-zA-Z]{2,}$`: both character
classes exclude `@`, so the split is at the unique `@`; the TLD has no
dot, so the domain splits at its last dot. -/
def emailCore (s : List Char) : Bool :=
  match splitAtChar '@' s with
  | none => false
  | some (localPart, rest) =>
    !localPart.isEmpty &&
      localPart.all (fun c =>
        isAsciiAlnum c || c = '.' || c = '_' || c = '%' || c = '+' || c = '-') &&
      (match splitAtChar '.' rest.reverse with
       | none => false
       | some (rsuf, rpre) =>
         !rpre.isEmpty &&
           rpre.all (fun c => isAsciiAlnum c || c = '.' || c = '-') &&
           rsuf.length ≥ 2 && rsuf.all Char.isAlpha)

/-- `TermIssueValidator.validate_field_formats`, in source order. -/
def validate_field_formats (data : IssueData) : List String :=
  (match data.term_english with
   | some s =>
     if !validEnglishTerm s then
       ["영어 용어는 영문자, 숫자, 공백, 하이픈, 언더스코어, 괄호만 포함해야 합니다"]
     else []
   | none => []) ++
  (match data.term_korean with
   | some s => if s.data.length < 2 then ["한국어 번역은 최소 2자 이상이어야 합니다"] else []
   | none => []) ++
  (match data.definition_korean with
   | some s => if s.data.length < 50 then ["한국어 정의는 최소 50자 이상이어야 합니다"] else []
   | none => []) ++
  (match data.definition_english with
   | some s => if s.data.length < 30 then ["영어 정의는 최소 30자 이상이어야 합니다"] else []
   | none => []) ++
  (match data.github_username with
   | some s =>
     if !withDollar usernameCore (stripAts s.data) then
       ["GitHub 사용자명 형식이 올바르지 않습니다"]
     else []
   | none => []) ++
  (match data.email with
   | some s =>
     if !s.isEmpty && !withDollar emailCore s.data then
       ["이메일 형식이 올바르지 않습니다"]
     else []
   | none => [])

/-- Non-overlapping occurrence count, `len(re.findall(lit, s))` for a
literal pattern (fuelled structural recursion). -/
def countOccsAux (pat : List Char) (skip fuel : Nat) (s : List Char) : Nat :=
  match fuel, s with
  | 0, _ => 0
  | _, [] => 0
  | fuel + 1, c :: cs =>
    match skip with
    | n + 1 => countOccsAux pat n fuel cs
    | 0 =>
      if isPrefixL pat (c :: cs) && !pat.isEmpty then
        1 + countOccsAux pat (pat.length - 1) fuel cs
      else countOccsAux pat 0 fuel cs

def countOccs (pat s : List Char) : Nat :=
  countOccsAux pat 0 s.length s

/-- `re.findall(r'https?://[^\s]+', refs)` is non-empty iff some
occurrence of `http://` or `https://` is followed by at least one
non-whitespace character. -/
def urlAt : List Char → Bool
  | s =>
    (isPrefixL "http://".data s &&
      (match s.drop 7 with | c :: _ => !c.isWhitespace | [] => false)) ||
    (isPrefixL "https://".data s &&
      (match s.drop 8 with | c :: _ => !c.isWhitespace | [] => false))

def hasUrl : List Char → Bool
  | [] => false
  | c :: cs => urlAt (c :: cs) || hasUrl cs

def reliable_sources : List String :=
  ["arxiv.org", "scholar.google", "ieee.org", "acm.org", "springer.com",
   "nature.com", "sciencedirect.com"]

/-- `TermIssueValidator.validate_content_quality`: blocking quality errors
versus non-blocking improvement suggestions. -/
def validate_content_quality (data : IssueData) : List String × List String :=
  let (e1, i1) :=
    match data.usage_examples with
    | some examples =>
      let base :=
        if !(containsStr examples "한국어:") || !(containsStr examples "영어:") then
          ["사용 예시에는 한국어와 영어 예시가 모두 포함되어야 합니다"]
        else []
      let korean_examples := countOccs "한국어:".data examples.data
      let english_examples := countOccs "영어:".data examples.data
      if korean_examples < 1 || english_examples < 1 then
        (base ++ ["한국어와 영어 예시를 각각 최소 1개씩 제공해야 합니다"], [])
      else if korean_examples = 1 && english_examples = 1 then
        (base, ["더 다양한 사용 맥락을 보여주기 위해 예시를 2개 이상 제공하는 것을 권장합니다"])
      else (base, [])
    | none => ([], [])
  let i2 :=
    match data.references with
    | some references =>
      (if !hasUrl references.data then
        ["온라인으로 접근 가능한 참고 문헌 URL을 1개 이상 포함하는 것을 권장합니다"]
      else []) ++
      (if !reliable_sources.any (fun src => containsL (lowerL references.data) src.data) then
        ["학술 논문이나 신뢰할 수 있는 출판사의 자료를 참고 문헌에 포함하는 것을 권장합니다"]
      else [])
    | none => []
  let i3 :=
    match data.definition_korean, data.definition_english with
    | some kor_def, some eng_def =>
      (if kor_def.data.length < 100 then
        ["더 상세하고 이해하기 쉬운 한국어 정의를 제공해주세요 (100자 이상 권장)"]
      else []) ++
      (if eng_def.data.length < 60 then
        ["더 상세하고 이해하기 쉬운 영어 정의를 제공해주세요 (60자 이상 권장)"]
      else [])
    | _, _ => []
  (e1, i1 ++ i2 ++ i3)

def required_agreements : List String :=
  ["이 기여는 오픈소스 라이선스 하에 제공됩니다",
   "제공한 정보가 정확하고 검증되었음을 확인합니다",
   "커뮤니티 가이드라인을 읽고 준수합니다"]

/-- `TermIssueValidator.validate_required_checkboxes`. -/
def validate_required_checkboxes (data : IssueData) : List String :=
  let agreed_items := data.agreement.getD []
  required_agreements.foldl
    (fun acc required =>
      if !agreed_items.any (fun item => containsStr item required) then
        acc ++ ["필수 동의 항목: '" ++ required ++ "'"]
      else acc)
    []

/-- A record of `terms-a-z.json` as `check_duplicate_terms` reads it
(`term.get(key, '')` semantics via optional fields). -/
structure Term where
  id : Option String := none
  english : Option String := none
  korean : Option String := none
deriving DecidableEq

/-- Python `f"{term.get('id')}"`. -/
def pyStr (o : Option String) : String := o.getD "None"

/-- The entry loop of `check_duplicate_terms` (lines 193-197).  When the
Korean comparison matches but the submission has no `term_korean`, the
message interpolation `data['term_korean']` raises `KeyError`, which the
enclosing `try` swallows into `None`. -/
def dupLoop (eng : String) (dataKor : Option String)
    (english_term korean_term : List Char) : List Term → Option String
  | [] => none
  | t :: rest =>
    if lowerL (t.english.getD "").data == english_term then
      some ("영어 용어 '" ++ eng ++ "'는 이미 존재합니다 (ID: " ++ pyStr t.id ++ ")")
    else if lowerL (t.korean.getD "").data == korean_term then
      match dataKor with
      | some kor =>
        some ("한국어 용어 '" ++ kor ++ "'는 이미 존재합니다 (ID: " ++ pyStr t.id ++ ")")
      | none => none
    else dupLoop eng dataKor english_term korean_term rest

/-- `TermIssueValidator.check_duplicate_terms`, with the dataset snapshot
supplied instead of fetched. -/
def check_duplicate_terms (data : IssueData) (terms : List Term) : Option String :=
  match data.term_english with
  | none => none
  | some eng =>
    dupLoop eng data.term_korean (lowerL eng.data)
      (lowerL (data.term_korean.getD "").data) terms

/-- A posted comment, identified by generator and arguments (the literal
comment text is a pure rendering of these). -/
inductive CommentMsg
  | completionRequest (missing formatE qualityE agreements : List String)
      (dup : Option String)
  | improvementSuggestions (improvements : List String)
  | validationSuccess
deriving DecidableEq

/-- The observable platform state the validator mutates: the issue's label
set and its comment stream. -/
structure GhState where
  labels : List String
  comments : List CommentMsg
deriving DecidableEq

/-- The platform's add-labels semantics on a label set: adding an
existing label is a no-op. -/
def addL (X ls : List String) : List String :=
  X ++ ls.filter fun l => !X.contains l

/-- The platform's remove-labels semantics. -/
def remL (X ls : List String) : List String :=
  X.filter fun l => !ls.contains l

def add_labels_to_issue (s : GhState) (ls : List String) : GhState :=
  { s with labels := addL s.labels ls }

def remove_labels_from_issue (s : GhState) (ls : List String) : GhState :=
  { s with labels := remL s.labels ls }

def add_comment_to_issue (s : GhState) (m : CommentMsg) : GhState :=
  { s with comments := s.comments ++ [m] }

/-- `TermIssueValidator.validate_issue` on already-parsed data: all five
check tiers run, then the label/comment effects are applied in source
order.  Returns the exit status and the final platform state. -/
def validate_issue (data : IssueData) (dataset : List Term) (s : GhState) :
    Bool × GhState :=
  let missing_fields := validate_required_fields data
  let format_errors := validate_field_formats data
  let qi := validate_content_quality data
  let quality_errors := qi.1
  let improvements := qi.2
  let missing_agreements := validate_required_checkboxes data
  let duplicate_error := check_duplicate_terms data dataset
  let has_errors := !missing_fields.isEmpty || !format_errors.isEmpty ||
    !quality_errors.isEmpty || !missing_agreements.isEmpty || duplicate_error.isSome
  if has_errors then
    let s := add_comment_to_issue s
      (.completionRequest missing_fields format_errors quality_errors
        missing_agreements duplicate_error)
    let labels_to_add := ["needs-more-info"] ++
      (if duplicate_error.isSome then ["duplicate-found"] else []) ++
      (if !missing_fields.isEmpty || !missing_agreements.isEmpty then ["incomplete"] else []) ++
      (if !format_errors.isEmpty then ["invalid-format"] else []) ++
      (if !quality_errors.isEmpty then ["needs-improvement"] else [])
    let s := add_labels_to_issue s labels_to_add
    let s := remove_labels_from_issue s ["auto-validated", "ready-for-review"]
    (false, s)
  else
    let s := add_labels_to_issue s ["auto-validated", "ready-for-review"]
    let s := remove_labels_from_issue s
      ["needs-more-info", "duplicate-found", "incomplete", "invalid-format",
       "needs-improvement"]
    let s := if !improvements.isEmpty then
      add_comment_to_issue s (.improvementSuggestions improvements)
    else s
    let s := add_comment_to_issue s .validationSuccess
    (true, s)

/-! ### `assign-reviewers-enhanced.py` — `ReviewerAssigner` -/

/-- One entry of the `eligible_reviewers` list built by
`get_eligible_reviewers`. -/
structure ReviewerEntry where
  username : String
  role : Option String
  specializations : List String
  name : Option String
  specialization_match : Bool
deriving DecidableEq

/-- The assigner's `label_to_category` table additionally knows
`verification-org`. -/
def assignLabelCategoryKeys : List String :=
  ["term-addition", "term-modification", "contributor-addition",
   "admin-addition", "organization-addition", "verification-org"]

/-- `ReviewerAssigner.get_eligible_reviewers`: category from labels, then
the active/role/specialization filter over the admins mapping. -/
def get_eligible_reviewers (issue_labels : List String)
    (specialization : Option String) (cfg : AdminConfig) : List ReviewerEntry :=
  match issue_labels.find? (fun l => assignLabelCategoryKeys.contains l) with
  | none => []
  | some category =>
    let rules := alistGet cfg.approval_rules category
    let required_roles := (rules.bind (·.required_roles)).getD ["reviewer"]
    let specialization_match := (rules.bind (·.specialization_match)).getD false
    cfg.admins.foldl
      (fun acc p =>
        let username := p.1
        let info := p.2
        if !(info.active.getD true) then acc
        else if !(match info.role with
                  | some r => required_roles.contains r
                  | none => false) then acc
        else if specialization_match && pyTruthy specialization &&
            !(info.specializations.contains (specialization.getD "") ||
              info.specializations.contains "전체 영역") then acc
        else
          acc ++ [{ username := username, role := info.role
                    specializations := info.specializations, name := info.name
                    specialization_match :=
                      if pyTruthy specialization then
                        info.specializations.contains (specialization.getD "")
                      else false }])
      []

/-- `role_priority.get(role, 0)`. -/
def role_priority : Option String → Nat
  | some "owner" => 3
  | some "maintainer" => 2
  | some "reviewer" => 1
  | _ => 0

/-- A stable descending sort on role priority, then the first
`max_assignees` (Python's stable `list.sort(key=…, reverse=True)`;
`insertionSort` is likewise stable, so the results coincide). -/
def roundRobinPick (max_assignees : Nat) (pool : List ReviewerEntry) :
    List ReviewerEntry :=
  (pool.insertionSort fun a b => role_priority b.role ≤ role_priority a.role).take
    max_assignees

/-- `ReviewerAssigner.select_reviewers`.  `random.sample` is modelled by
the oracle `sample` (its only guarantee being that it picks from its
input). -/
def select_reviewers (eligible_reviewers : List ReviewerEntry)
    (cfg : AdminConfig) (specialization : Option String)
    (sample : List ReviewerEntry → Nat → List ReviewerEntry) : List String :=
  let auto := cfg.auto_assignment
  let max_assignees := (auto.bind (·.max_assignees)).getD 3
  let strategy := (auto.bind (·.assignment_strategy)).getD "round_robin"
  let prefer_specialization := (auto.bind (·.prefer_specialization)).getD true
  if eligible_reviewers.isEmpty then []
  else
    let pick : List ReviewerEntry → List ReviewerEntry := fun pool =>
      if strategy == "random" then sample pool (min max_assignees pool.length)
      else roundRobinPick max_assignees pool
    if prefer_specialization && pyTruthy specialization then
      let specialized_reviewers := eligible_reviewers.filter (·.specialization_match)
      if !specialized_reviewers.isEmpty then
        (pick specialized_reviewers).map (·.username)
      else (pick eligible_reviewers).map (·.username)
    else (pick eligible_reviewers).map (·.username)

/-! ### `process-term-data.py` -/

/-- A record of `terms-a-z.json` as this script manipulates it (fields it
never reads or branches on are summarised by the ones kept). -/
structure TermRec where
  id : Option String := none
  english : String
  korean : String
  status : String := "validated"
  version : Nat := 1
deriving DecidableEq

/-- The issue-data JSON driving one run. -/
structure TermIssueData where
  id : Option String := none
  english : String
  korean : String
deriving DecidableEq

set_option linter.unusedVariables false in
/-- `generate_term_id`: lower-case, spaces/underscores to hyphens, strip
everything outside `[a-z0-9-]`.  (`korean_term` is accepted but unused,
as in the source.) -/
def generate_term_id (english_term korean_term : String) : String :=
  String.mk
    (((lowerL english_term.data).map fun c =>
        if c = ' ' ∨ c = '_' then '-' else c).filter fun c =>
      c.isLower || c.isDigit || c == '-')

/-- `issue_data.get("id") or generate_term_id(...)` (Python `or`
truthiness: an empty-string id also falls back). -/
def termIdOf (d : TermIssueData) : String :=
  match d.id with
  | some s => if s ≠ "" then s else generate_term_id d.english d.korean
  | none => generate_term_id d.english d.korean

/-- The `for i, term in enumerate(terms)` loop of `find_existing_term`. -/
def findExistingAux (term_id : String) (i : Nat) :
    List TermRec → Option (Nat × TermRec)
  | [] => none
  | t :: rest =>
    if t.id == some term_id then some (i, t)
    else findExistingAux term_id (i + 1) rest

def find_existing_term (terms : List TermRec) (term_id : String) :
    Option (Nat × TermRec) :=
  findExistingAux term_id 0 terms

/-- `create_term_object` restricted to the retained fields. -/
def create_term_object (d : TermIssueData) : TermRec :=
  { id := some (termIdOf d), english := d.english, korean := d.korean,
    status := "validated", version := 1 }

/-- `update_existing_term` restricted to the retained fields. -/
def update_existing_term (existing : TermRec) (d : TermIssueData) : TermRec :=
  { existing with
    english := d.english
    korean := d.korean
    version := existing.version + 1 }

/-- The alphabetical sort key `x["english"].lower()`. -/
def sortKey (t : TermRec) : String := String.mk (lowerL t.english.data)

/-- `sort_terms_alphabetically`: Python's stable `sorted(key=…)`, rendered
by the (equally stable) insertion sort on the same key order. -/
def sort_terms_alphabetically (terms : List TermRec) : List TermRec :=
  terms.insertionSort fun a b => sortKey a ≤ sortKey b

inductive TermAction
  | add
  | modify
deriving DecidableEq

/-- The `main` flow of `process-term-data.py` after loading: duplicate
check (for `add`) or lookup (for `modify`), then sort, then the contents
written to `terms-a-z.json`.  An `error` result is `sys.exit(1)` before
any write, leaving the dataset file unchanged. -/
def processTermData (action : TermAction) (issue_data : Option TermIssueData)
    (existing_terms : List TermRec) : Except String (List TermRec) :=
  match issue_data with
  | none => .error "❌ Issue 데이터를 로드할 수 없습니다."
  | some d =>
    let term_id := termIdOf d
    match action with
    | .add =>
      match find_existing_term existing_terms term_id with
      | some _ =>
        .error ("⚠️ 용어 '" ++ term_id ++ "'가 이미 존재합니다. 수정 모드를 사용하세요.")
      | none =>
        .ok (sort_terms_alphabetically (existing_terms ++ [create_term_object d]))
    | .modify =>
      match find_existing_term existing_terms term_id with
      | none => .error ("❌ 용어 '" ++ term_id ++ "'를 찾을 수 없습니다.")
      | some (i, t) =>
        .ok (sort_terms_alphabetically
          (existing_terms.set i (update_existing_term t d)))

/-! ### Concrete instances used in witnesses and counterexamples -/

/-- The string-valued entries of the parsed field mapping, in pattern
-table order. -/
def stringFieldsOf (d : IssueData) : List (Option String) :=
  [d.contribution_type, d.term_english, d.term_korean, d.category,
   d.alternative_translations, d.pronunciation, d.definition_korean,
   d.definition_english, d.usage_examples, d.references, d.related_terms,
   d.github_username, d.email, d.additional_notes]

/-- A parsed submission that passes every blocking tier except the
usage-example quality check (no `한국어:`/`영어:` markers). -/
def qualityOnlyData : IssueData :=
  { contribution_type := some "새로운 용어 추가"
    term_english := some "Transformer"
    term_korean := some "트랜스포머"
    category := some "DL (Deep Learning)"
    definition_korean := some "트랜스포머는 어텐션 메커니즘만을 사용하여 입력 시퀀스 전체를 한꺼번에 처리하는 신경망 구조로, 순환 구조 없이 병렬 처리가 가능하여 대규모 학습에 널리 쓰입니다"
    definition_english := some "A neural network architecture that relies entirely on attention mechanisms."
    usage_examples := some "예시 문장이 하나 있습니다"
    references := some "https://arxiv.org/abs/1706.03762"
    github_username := some "alice"
    agreement := some required_agreements }

/-- A submission whose primary term differs from an existing entry only
in case. -/
def nnCandidate : IssueData :=
  { term_english := some "neural network", term_korean := some "신경망" }

def nnDataset : List Term :=
  [{ id := some "neural-network", english := some "Neural Network",
     korean := some "인공신경망" }]

/-- A roster with one `CV` and one `NLP` reviewer under a
specialization-required rule for term additions. -/
def assignConfig : AdminConfig :=
  { admins := [("bob", { role := some "reviewer", specializations := ["CV"] }),
               ("carol", { role := some "reviewer", specializations := ["NLP"] })]
    approval_rules := [("term-addition",
      { required_roles := some ["reviewer"], specialization_match := some true })] }

/-- A deterministic stand-in for `random.sample` (it picks from its
input, which is all the proofs rely on). -/
def takeSample : List ReviewerEntry → Nat → List ReviewerEntry :=
  fun l k => l.take k

/-- A fresh term to add behind an existing dataset entry. -/
def dBeta : TermIssueData := { english := "Beta", korean := "베타" }

/-- A submission whose generated identifier collides with the dataset. -/
def dAlphaDup : TermIssueData := { english := "Alpha", korean := "다른 번역" }

def recAlpha : TermRec :=
  { id := some "alpha", english := "Alpha", korean := "알파" }

/-! ## Theorems -/

lemma fallbackLabel_cases (content : List Char) :
    fallbackLabel content = ["bug"] ∨ fallbackLabel content = ["enhancement"] ∨
    fallbackLabel content = ["feature"] ∨ fallbackLabel content = ["needs-triage"] := by
  unfold fallbackLabel
  split_ifs <;> simp

lemma quorum_bool (m a rj : Nat) :
    (((decide (m ≤ a) && (rj == 0)) = true) ↔ (m ≤ a ∧ rj = 0)) ∧
    (1 ≤ rj → (decide (m ≤ a) && (rj == 0)) = false) := by
  constructor
  · simp
  · intro h1
    have h2 : (rj == 0) = false := by simp; omega
    simp [h2]

/-- C1: `check_approval_status` reports `approved = true` iff the number
of qualifying approvals reaches the rule's minimum AND the number of
qualifying rejections is zero; in particular any rejection count `≥ 1`
forces `approved = false` regardless of the approval count. -/
theorem c1_quorum_iff_veto (cfg : AdminConfig) (labels : List String) (body : String)
    (comments : List Comment) (r : ApprovalResult)
    (h : check_approval_status cfg labels body comments = .ok r) :
    (r.approved = true ↔
      r.min_approvals ≤ r.approval_details.length ∧ r.rejection_details.length = 0) ∧
    (1 ≤ r.rejection_details.length → r.approved = false) := by
  unfold check_approval_status at h
  cases hcat : get_issue_category labels with
  | none => simp [hcat] at h
  | some category =>
    simp only [hcat] at h
    injection h with h
    subst h
    exact quorum_bool _ _ _

/-- A configuration with one owner admin and a two-approval rule for term
additions, used as a concrete aggregation scenario. -/
def sampleConfig : AdminConfig :=
  { admins := [("alice", { role := some "owner", specializations := ["ML"] })],
    approval_rules := [("term-addition",
      { min_approvals := some 2, required_roles := some ["owner"],
        specialization_match := some false })] }

/-- A qualifying approval comment by that admin. -/
def sampleApprove : Comment := { author := "alice", body := "approve" }

/-- The aggregation state after one qualifying approval by `alice` under
`sampleConfig`. -/
def sampleOneApproval : ApprovalResult :=
  { approved := false, category := "term-addition", specialization := none,
    min_approvals := 2, current_approvals := 1, rejections := 0,
    approval_details := [{ author := "alice", role := some "owner",
                           comment := "approve" }],
    rejection_details := [] }

/-- C1 witness: on the concrete one-approval scenario the quorum formula
evaluates as the theorem states. -/
theorem c1_witness :
    check_approval_status sampleConfig ["term-addition"] "" [sampleApprove] =
      .ok sampleOneApproval ∧
    ((sampleOneApproval.approved = true ↔
      sampleOneApproval.min_approvals ≤ sampleOneApproval.approval_details.length ∧
        sampleOneApproval.rejection_details.length = 0) ∧
     (1 ≤ sampleOneApproval.rejection_details.length →
      sampleOneApproval.approved = false)) :=
  ⟨by rfl, c1_quorum_iff_veto sampleConfig ["term-addition"] "" [sampleApprove]
    sampleOneApproval (by rfl)⟩

/-- C2 counterexample: the enhanced aggregator appends one vote per
qualifying comment with no author deduplication — a second approval
comment by the same admin raises the counted total from 1 to 2 and meets
the two-approval quorum on its own. -/
theorem c2_counterexample :
    (check_approval_status sampleConfig ["term-addition"] "" [sampleApprove]).toOption.map
        (fun r => (r.current_approvals, r.approved)) = some (1, false) ∧
    (check_approval_status sampleConfig ["term-addition"] ""
        [sampleApprove, sampleApprove]).toOption.map
        (fun r => (r.current_approvals, r.approved)) = some (2, true) := by
  constructor <;> decide

lemma insertUnique_nodup (s : List String) (a : String) (h : s.Nodup) :
    (insertUnique s a).Nodup := by
  unfold insertUnique
  split_ifs with hc
  · exact h
  · simp only [List.nodup_append, List.nodup_cons, List.nodup_nil]
    refine ⟨h, ⟨by simp, by simp⟩, ?_⟩
    intro x hx hxa
    simp at hxa
    subst hxa
    exact hc (List.elem_iff.mpr hx)

lemma approval_authors_nodup (admins : List String) (comments : List Comment) :
    (approval_authors admins comments).Nodup := by
  unfold approval_authors
  suffices h : ∀ (s : List String), s.Nodup →
      (comments.foldl (fun s c =>
        if admins.contains c.author && legacy_is_approval_comment c.body then
          insertUnique s c.author else s) s).Nodup by
    exact h [] (by simp)
  induction comments with
  | nil => intro s hs; exact hs
  | cons c cs ih =>
    intro s hs
    simp only [List.foldl_cons]
    apply ih
    split_ifs with hq
    · exact insertUnique_nodup s c.author hs
    · exact hs

lemma approval_authors_append (admins : List String) (comments : List Comment)
    (c : Comment) :
    approval_authors admins (comments ++ [c]) =
      (if admins.contains c.author && legacy_is_approval_comment c.body then
        insertUnique (approval_authors admins comments) c.author
      else approval_authors admins comments) := by
  unfold approval_authors
  rw [List.foldl_append]
  rfl

/-- C2 (amended): only the legacy counter `count_approvals` has set
semantics over author identities — its author set is duplicate-free and a
further comment from an already-counted author never changes the count;
the enhanced aggregator counts one vote per qualifying comment (see the
counterexample). -/
theorem c2_legacy_count_dedups :
    (∀ (admins : List String) (comments : List Comment),
      (approval_authors admins comments).Nodup) ∧
    (∀ (admins : List String) (comments : List Comment) (c : Comment),
      (approval_authors admins comments).contains c.author = true →
      count_approvals admins (comments ++ [c]) = count_approvals admins comments) := by
  refine ⟨approval_authors_nodup, ?_⟩
  intro admins comments c hmem
  unfold count_approvals
  rw [approval_authors_append]
  split_ifs with hq
  · unfold insertUnique
    rw [if_pos hmem]
  · rfl

/-- A qualifying approval comment under the legacy keyword patterns. -/
def sampleLegacyApprove : Comment := { author := "alice", body := "LGTM" }

/-- C2 witness: a duplicate qualifying approval by `alice` leaves the
legacy approval count at 1. -/
theorem c2_witness :
    (approval_authors ["alice"] [sampleLegacyApprove]).contains
      sampleLegacyApprove.author = true ∧
    count_approvals ["alice"] [sampleLegacyApprove, sampleLegacyApprove] =
      count_approvals ["alice"] [sampleLegacyApprove] :=
  ⟨by decide, c2_legacy_count_dedups.2 ["alice"] [sampleLegacyApprove]
    sampleLegacyApprove (by decide)⟩

/-- C10: for every issue body and title, `detect_issue_type` returns a
non-empty label list, and when none of the four contribution-type pattern
groups matches, the result is exactly one of `bug`, `enhancement`,
`feature`, `needs-triage`. -/
theorem c10_detect_issue_type_nonempty_fallback (b t : String) :
    detect_issue_type b t ≠ [] ∧
    (term_patterns.any (searchPat (labelContent b t)) = false →
     contributor_patterns.any (searchPat (labelContent b t)) = false →
     organization_patterns.any (searchPat (labelContent b t)) = false →
     admin_patterns.any (searchPat (labelContent b t)) = false →
     detect_issue_type b t = ["bug"] ∨ detect_issue_type b t = ["enhancement"] ∨
     detect_issue_type b t = ["feature"] ∨ detect_issue_type b t = ["needs-triage"]) := by
  constructor
  · show ¬ _
    simp only [detect_issue_type]
    intro h
    rcases fallbackLabel_cases (labelContent b t) with hf | hf | hf | hf <;>
      rcases hte : (typeLabels (labelContent b t)).isEmpty <;>
      simp_all [List.isEmpty_iff]
  · intro h1 h2 h3 h4
    have hempty : typeLabels (labelContent b t) = [] := by
      simp [typeLabels, h1, h2, h3, h4]
    simp [detect_issue_type, hempty, fallbackLabel_cases (labelContent b t)]

/-- C10 witness: a plain request matches no type pattern and falls back to
one of the four generic labels. -/
theorem c10_witness :
    term_patterns.any (searchPat (labelContent "hello there" "a plain request")) = false ∧
    (detect_issue_type "hello there" "a plain request" = ["bug"] ∨
     detect_issue_type "hello there" "a plain request" = ["enhancement"] ∨
     detect_issue_type "hello there" "a plain request" = ["feature"] ∨
     detect_issue_type "hello there" "a plain request" = ["needs-triage"]) :=
  ⟨by decide,
   (c10_detect_issue_type_nonempty_fallback "hello there" "a plain request").2
     (by decide) (by decide) (by decide) (by decide)⟩

lemma validate_issue_fst (data : IssueData) (dataset : List Term) (s : GhState) :
    (validate_issue data dataset s).1 =
      !(!(validate_required_fields data).isEmpty ||
        !(validate_field_formats data).isEmpty ||
        !(validate_content_quality data).1.isEmpty ||
        !(validate_required_checkboxes data).isEmpty ||
        (check_duplicate_terms data dataset).isSome) := by
  simp only [validate_issue]
  cases hE : (!(validate_required_fields data).isEmpty ||
      !(validate_field_formats data).isEmpty ||
      !(validate_content_quality data).1.isEmpty ||
      !(validate_required_checkboxes data).isEmpty ||
      (check_duplicate_terms data dataset).isSome) with
  | false => simp [hE]
  | true => simp [hE]

/-- C3 counterexample: a submission with no missing fields, no format
errors, all agreements checked, and no duplicate is still rejected by the
validator when the usage-example quality tier fails, so quality findings
do block. -/
theorem c3_counterexample :
    validate_required_fields qualityOnlyData = [] ∧
    validate_field_formats qualityOnlyData = [] ∧
    validate_required_checkboxes qualityOnlyData = [] ∧
    check_duplicate_terms qualityOnlyData [] = none ∧
    (validate_content_quality qualityOnlyData).1 ≠ [] ∧
    (validate_issue qualityOnlyData [] ⟨[], []⟩).1 = false :=
  ⟨by decide, by decide, by decide, by decide, by decide, by decide⟩

/-- C3 (amended): a contribution is eligible to proceed iff the
missing-field list, format-error list, quality-error list,
missing-agreement list AND duplicate conflict are all empty; only the
improvement suggestions (the second component of the quality check) never
block. -/
theorem c3_eligibility_iff (data : IssueData) (dataset : List Term) (s : GhState) :
    (validate_issue data dataset s).1 = true ↔
      (validate_required_fields data = [] ∧ validate_field_formats data = [] ∧
       (validate_content_quality data).1 = [] ∧
       validate_required_checkboxes data = [] ∧
       check_duplicate_terms data dataset = none) := by
  rw [validate_issue_fst]
  simp only [Bool.not_eq_true', Bool.or_eq_false_iff, Bool.not_eq_false,
    List.isEmpty_iff, Bool.not_eq_false']
  constructor
  · rintro ⟨⟨⟨⟨h1, h2⟩, h3⟩, h4⟩, h5⟩
    refine ⟨h1, h2, h3, h4, ?_⟩
    cases hd : check_duplicate_terms data dataset with
    | none => rfl
    | some v => rw [hd] at h5; simp at h5
  · rintro ⟨h1, h2, h3, h4, h5⟩
    exact ⟨⟨⟨⟨h1, h2⟩, h3⟩, h4⟩, by rw [h5]; rfl⟩

lemma foldl_if_append {α β : Type} (f : α → Bool) (g : α → β) :
    ∀ (l : List α) (acc : List β),
      l.foldl (fun a x => if f x then a ++ [g x] else a) acc =
        acc ++ (l.filter f).map g := by
  intro l
  induction l with
  | nil => intro acc; simp
  | cons x xs ih =>
    intro acc
    simp only [List.foldl_cons, List.filter_cons]
    cases hf : f x with
    | true => simp [hf, ih, List.append_assoc]
    | false => simp [hf, ih]

lemma validate_required_fields_eq (data : IssueData) :
    validate_required_fields data =
      (requiredFieldSpec.filter fun p => isBlankOpt (p.1 data)).map (·.2) := by
  unfold validate_required_fields
  rw [foldl_if_append]
  simp

/-- C4: one validation pass collects every finding: a field label is in
the missing-field list exactly when that required field is absent or
blank (never only the first one), and a failing run posts the one
consolidated comment carrying the complete output of all five check
tiers. -/
theorem c4_validation_completeness (data : IssueData) (dataset : List Term)
    (s : GhState) :
    (∀ name, name ∈ validate_required_fields data ↔
      ∃ p ∈ requiredFieldSpec, p.2 = name ∧ isBlankOpt (p.1 data) = true) ∧
    ((validate_issue data dataset s).1 = false →
      (validate_issue data dataset s).2.comments =
        s.comments ++ [.completionRequest (validate_required_fields data)
          (validate_field_formats data) (validate_content_quality data).1
          (validate_required_checkboxes data) (check_duplicate_terms data dataset)]) := by
  constructor
  · intro name
    rw [validate_required_fields_eq]
    simp only [List.mem_map, List.mem_filter]
    constructor
    · rintro ⟨p, ⟨hmem, hblank⟩, hname⟩
      exact ⟨p, hmem, hname, hblank⟩
    · rintro ⟨p, hmem, hname, hblank⟩
      exact ⟨p, ⟨hmem, hblank⟩, hname⟩
  · intro hfail
    simp only [validate_issue] at hfail ⊢
    cases hE : (!(validate_required_fields data).isEmpty ||
        !(validate_field_formats data).isEmpty ||
        !(validate_content_quality data).1.isEmpty ||
        !(validate_required_checkboxes data).isEmpty ||
        (check_duplicate_terms data dataset).isSome) with
    | false => simp [hE] at hfail
    | true =>
      simp only [hE, if_true]
      simp [add_labels_to_issue, remove_labels_from_issue, add_comment_to_issue]

/-- C4 witness: the empty submission is missing all nine required fields
and its failing run posts exactly the consolidated comment. -/
theorem c4_witness :
    (validate_issue ({} : IssueData) [] ⟨[], []⟩).1 = false ∧
    (validate_issue ({} : IssueData) [] ⟨[], []⟩).2.comments =
      [] ++ [.completionRequest (validate_required_fields {})
        (validate_field_formats {}) (validate_content_quality {}).1
        (validate_required_checkboxes {}) (check_duplicate_terms {} [])] :=
  ⟨by decide,
   (c4_validation_completeness ({} : IssueData) [] ⟨[], []⟩).2 (by decide)⟩

/-- C5 counterexample: running the validator twice on the same unchanged
submission posts the consolidated comment again on the second run (two
comments total), so the comment stream is not idempotent. -/
theorem c5_counterexample :
    (validate_issue ({} : IssueData) [] ⟨[], []⟩).2.comments.length = 1 ∧
    (validate_issue ({} : IssueData) []
      (validate_issue ({} : IssueData) [] ⟨[], []⟩).2).2.comments.length = 2 :=
  ⟨by decide, by decide⟩

lemma mem_addL_of_mem (X A : List String) (a : String) (ha : a ∈ A) : a ∈ addL X A := by
  unfold addL
  cases hx : X.contains a with
  | true => exact List.mem_append_left _ (List.elem_iff.mp hx)
  | false =>
    refine List.mem_append_right _ (List.mem_filter.mpr ⟨ha, ?_⟩)
    rw [hx]
    rfl

lemma mem_remL_iff (X R : List String) (a : String) :
    a ∈ remL X R ↔ a ∈ X ∧ R.contains a = false := by
  simp [remL, List.mem_filter]

lemma addL_no_new (Y A : List String) (h : ∀ a ∈ A, a ∈ Y) : addL Y A = Y := by
  unfold addL
  have hf : A.filter (fun l => !Y.contains l) = [] :=
    List.filter_eq_nil_iff.mpr fun a ha => by
      have hc : Y.contains a = true := List.elem_iff.mpr (h a ha)
      rw [hc]
      simp
  rw [hf, List.append_nil]

lemma remL_idem (X R : List String) : remL (remL X R) R = remL X R := by
  unfold remL
  rw [List.filter_filter]
  apply List.filter_congr
  intro a _
  rw [Bool.and_self]

lemma label_roundtrip (X A R : List String) (hAR : ∀ a ∈ A, R.contains a = false) :
    remL (addL (remL (addL X A) R) A) R = remL (addL X A) R := by
  have hsub : ∀ a ∈ A, a ∈ remL (addL X A) R := fun a ha =>
    (mem_remL_iff _ _ _).mpr ⟨mem_addL_of_mem _ _ _ ha, hAR a ha⟩
  rw [addL_no_new _ _ hsub, remL_idem]

lemma mem_ite_singleton {c : Prop} [Decidable c] {x a : String}
    (h : a ∈ if c then [x] else ([] : List String)) : a = x := by
  split at h
  · simpa using h
  · simp at h

/-- C5 (amended): re-running the validator on unchanged input yields the
same exit status and the identical final label set, but each run appends
its comment(s) again — the comment count strictly grows instead of
staying fixed. -/
theorem c5_label_idempotent_comment_repeated (data : IssueData)
    (dataset : List Term) (s : GhState) :
    (validate_issue data dataset (validate_issue data dataset s).2).1 =
      (validate_issue data dataset s).1 ∧
    (validate_issue data dataset (validate_issue data dataset s).2).2.labels =
      (validate_issue data dataset s).2.labels ∧
    (validate_issue data dataset s).2.comments.length <
      (validate_issue data dataset (validate_issue data dataset s).2).2.comments.length := by
  simp only [validate_issue]
  cases hE : (!(validate_required_fields data).isEmpty ||
      !(validate_field_formats data).isEmpty ||
      !(validate_content_quality data).1.isEmpty ||
      !(validate_required_checkboxes data).isEmpty ||
      (check_duplicate_terms data dataset).isSome) with
  | true =>
    simp only [hE, if_true]
    refine ⟨?_, ?_, ?_⟩
    · first
      | rfl
      | trivial
    · simp only [add_labels_to_issue, remove_labels_from_issue, add_comment_to_issue]
      apply label_roundtrip
      intro a ha
      simp only [List.mem_append] at ha
      rcases ha with ((((ha | ha) | ha) | ha) | ha)
      · simp at ha; subst ha; decide
      · rw [mem_ite_singleton ha]; decide
      · rw [mem_ite_singleton ha]; decide
      · rw [mem_ite_singleton ha]; decide
      · rw [mem_ite_singleton ha]; decide
    · simp [add_labels_to_issue, remove_labels_from_issue, add_comment_to_issue]
  | false =>
    simp only [hE, Bool.false_eq_true, if_false]
    cases hI : (!(validate_content_quality data).2.isEmpty) with
    | true =>
      simp only [hI, if_true]
      refine ⟨?_, ?_, ?_⟩
      · first
        | rfl
        | trivial
      · simp only [add_labels_to_issue, remove_labels_from_issue, add_comment_to_issue]
        apply label_roundtrip
        intro a ha
        simp at ha
        rcases ha with ha | ha <;> subst ha <;> decide
      · simp [add_labels_to_issue, remove_labels_from_issue, add_comment_to_issue]
    | false =>
      simp only [hI, Bool.false_eq_true, if_false]
      refine ⟨?_, ?_, ?_⟩
      · first
        | rfl
        | trivial
      · simp only [add_labels_to_issue, remove_labels_from_issue, add_comment_to_issue]
        apply label_roundtrip
        intro a ha
        simp at ha
        rcases ha with ha | ha <;> subst ha <;> decide
      · simp [add_labels_to_issue, remove_labels_from_issue, add_comment_to_issue]

lemma roundRobinPick_subset {n : Nat} {pool : List ReviewerEntry} {x : ReviewerEntry}
    (h : x ∈ roundRobinPick n pool) : x ∈ pool := by
  unfold roundRobinPick at h
  exact (List.perm_insertionSort _ pool).mem_iff.mp (List.take_subset _ _ h)

lemma select_reviewers_subset (elig : List ReviewerEntry) (cfg : AdminConfig)
    (spec : Option String)
    (sample : List ReviewerEntry → Nat → List ReviewerEntry)
    (hsample : ∀ l k, ∀ x ∈ sample l k, x ∈ l) :
    ∀ u ∈ select_reviewers elig cfg spec sample, ∃ r ∈ elig, r.username = u := by
  have hpool : ∀ (pool : List ReviewerEntry), (∀ x ∈ pool, x ∈ elig) →
      ∀ u ∈ (if ((cfg.auto_assignment.bind fun x => x.assignment_strategy).getD "round_robin" == "random") = true then
          sample pool ((cfg.auto_assignment.bind fun x => x.max_assignees).getD 3 ⊓ pool.length)
        else roundRobinPick ((cfg.auto_assignment.bind fun x => x.max_assignees).getD 3) pool).map
          (fun x => x.username),
        ∃ r ∈ elig, r.username = u := by
    intro pool hsub u hu
    simp only [List.mem_map] at hu
    rcases hu with ⟨r, hr, hname⟩
    refine ⟨r, ?_, hname⟩
    split_ifs at hr
    · exact hsub r (hsample _ _ r hr)
    · exact hsub r (roundRobinPick_subset hr)
  simp only [select_reviewers]
  cases hE : elig.isEmpty with
  | true => simp
  | false =>
    simp only [hE, Bool.false_eq_true, if_false]
    cases hP : ((cfg.auto_assignment.bind fun x => x.prefer_specialization).getD true &&
        pyTruthy spec) with
    | false =>
      simp only [hP, Bool.false_eq_true, if_false]
      exact hpool elig (fun x hx => hx)
    | true =>
      simp only [hP, if_true]
      cases hS : (!(elig.filter fun x => x.specialization_match).isEmpty) with
      | true =>
        simp only [hS, if_true]
        exact hpool _ (fun x hx => (List.mem_filter.mp hx).1)
      | false =>
        simp only [hS, Bool.false_eq_true, if_false]
        exact hpool elig (fun x hx => hx)

lemma eligible_all_specialized (cfg : AdminConfig) (labels : List String)
    (s cat : String)
    (hcat : labels.find? (fun l => assignLabelCategoryKeys.contains l) = some cat)
    (hrule : ((alistGet cfg.approval_rules cat).bind (·.specialization_match)).getD false = true)
    (hs : pyTruthy (some s) = true) :
    ∀ r ∈ get_eligible_reviewers labels (some s) cfg,
      s ∈ r.specializations ∨ "전체 영역" ∈ r.specializations := by
  unfold get_eligible_reviewers
  rw [hcat]
  simp only [hrule, hs, Bool.true_and, Bool.and_true, Option.getD_some, if_true]
  suffices hgen : ∀ (l : List (String × AdminInfo)) (acc : List ReviewerEntry),
      (∀ r ∈ acc, s ∈ r.specializations ∨ "전체 영역" ∈ r.specializations) →
      ∀ r ∈ l.foldl (fun acc p =>
        if !(p.2.active.getD true) then acc
        else if !(match p.2.role with
                  | some r => (((alistGet cfg.approval_rules cat).bind (·.required_roles)).getD ["reviewer"]).contains r
                  | none => false) then acc
        else if !(p.2.specializations.contains s ||
              p.2.specializations.contains "전체 영역") then acc
        else
          acc ++ [{ username := p.1, role := p.2.role
                    specializations := p.2.specializations, name := p.2.name
                    specialization_match := p.2.specializations.contains s }]) acc,
        s ∈ r.specializations ∨ "전체 영역" ∈ r.specializations by
    exact hgen cfg.admins [] (by simp)
  intro l
  induction l with
  | nil => intro acc hacc r hr; exact hacc r hr
  | cons p ps ih =>
    intro acc hacc r hr
    simp only [List.foldl_cons] at hr
    refine ih _ ?_ r hr
    intro r' hr'
    split_ifs at hr' with h1 h2 h3
    · exact hacc r' hr'
    · exact hacc r' hr'
    · exact hacc r' hr'
    · rcases List.mem_append.mp hr' with hmem | hmem
      · exact hacc r' hmem
      · simp at hmem
        subst hmem
        have h3' : (p.2.specializations.contains s ||
            p.2.specializations.contains "전체 영역") = true := by
          cases hcl : (p.2.specializations.contains s ||
              p.2.specializations.contains "전체 영역") with
          | true => rfl
          | false => exact absurd (by rw [hcl]; rfl) h3
        rcases Bool.or_eq_true_iff.mp h3' with hc | hc
        · exact Or.inl (List.elem_iff.mp hc)
        · exact Or.inr (List.elem_iff.mp hc)

/-- C6: when the routing rule requires specialization match and the
contribution's domain is known, every selected reviewer is an eligible
reviewer whose specializations contain the domain or the wildcard marker
— a non-matching reviewer is never selected ahead of or instead of a
matching one. -/
theorem c6_specialization_preference (cfg : AdminConfig) (labels : List String)
    (s cat : String)
    (sample : List ReviewerEntry → Nat → List ReviewerEntry)
    (hsample : ∀ l k, ∀ x ∈ sample l k, x ∈ l)
    (hcat : labels.find? (fun l => assignLabelCategoryKeys.contains l) = some cat)
    (hrule : ((alistGet cfg.approval_rules cat).bind (·.specialization_match)).getD false = true)
    (hs : pyTruthy (some s) = true) :
    ∀ u ∈ select_reviewers (get_eligible_reviewers labels (some s) cfg) cfg
        (some s) sample,
      ∃ r ∈ get_eligible_reviewers labels (some s) cfg, r.username = u ∧
        (s ∈ r.specializations ∨ "전체 영역" ∈ r.specializations) := by
  intro u hu
  rcases select_reviewers_subset _ cfg (some s) sample hsample u hu with ⟨r, hr, hname⟩
  exact ⟨r, hr, hname, eligible_all_specialized cfg labels s cat hcat hrule hs r hr⟩

/-- C6 witness: with an NLP submission, the NLP reviewer is selected and
the selection lies inside the matching eligible set. -/
theorem c6_witness :
    (["term-addition"].find? (fun l => assignLabelCategoryKeys.contains l) =
      some "term-addition") ∧
    ((alistGet assignConfig.approval_rules "term-addition").bind
      (·.specialization_match)).getD false = true ∧
    pyTruthy (some "NLP") = true ∧
    "carol" ∈ select_reviewers
      (get_eligible_reviewers ["term-addition"] (some "NLP") assignConfig)
      assignConfig (some "NLP") takeSample ∧
    (∃ r ∈ get_eligible_reviewers ["term-addition"] (some "NLP") assignConfig,
      r.username = "carol" ∧
        ("NLP" ∈ r.specializations ∨ "전체 영역" ∈ r.specializations)) :=
  ⟨by decide, by decide, by decide, by decide,
   c6_specialization_preference assignConfig ["term-addition"] "NLP" "term-addition"
     takeSample (fun l k x hx => List.take_subset _ _ hx) (by decide) (by decide)
     (by decide) "carol" (by decide)⟩

lemma dupLoop_isSome (eng kor : String) (et kt : List Char) (terms : List Term)
    (hw : ∃ t ∈ terms, lowerL (t.english.getD "").data = et ∨
      lowerL (t.korean.getD "").data = kt) :
    (dupLoop eng (some kor) et kt terms).isSome = true := by
  induction terms with
  | nil => simp at hw
  | cons t ts ih =>
    simp only [dupLoop]
    cases he : (lowerL (t.english.getD "").data == et) with
    | true => simp [he]
    | false =>
      cases hk : (lowerL (t.korean.getD "").data == kt) with
      | true => simp [he, hk]
      | false =>
        simp only [he, hk, Bool.false_eq_true, if_false]
        apply ih
        rcases hw with ⟨t0, ht0, hcase⟩
        rcases List.mem_cons.mp ht0 with rfl | hmem
        · exfalso
          rcases hcase with hcase | hcase
          · exact absurd (beq_iff_eq.mpr hcase) (by simp [he])
          · exact absurd (beq_iff_eq.mpr hcase) (by simp [hk])
        · exact ⟨t0, hmem, hcase⟩

/-- C7: the duplicate check is skipped when the primary-term field is
absent, and whenever the submission carries both terms, a case-folded
match of any dataset entry on the primary term or the Korean counterpart
produces a duplicate conflict. -/
theorem c7_duplicate_detection (data : IssueData) (terms : List Term) :
    (data.term_english = none → check_duplicate_terms data terms = none) ∧
    (∀ eng kor, data.term_english = some eng → data.term_korean = some kor →
      (∃ t ∈ terms, lowerL (t.english.getD "").data = lowerL eng.data ∨
        lowerL (t.korean.getD "").data = lowerL kor.data) →
      (check_duplicate_terms data terms).isSome = true) := by
  constructor
  · intro h
    unfold check_duplicate_terms
    rw [h]
  · intro eng kor he hk hex
    unfold check_duplicate_terms
    rw [he, hk]
    simp only [Option.getD_some]
    exact dupLoop_isSome eng kor _ _ terms hex

/-- C7 witness: the entry `Neural Network` conflicts with the
case-different submission `neural network`. -/
theorem c7_witness :
    nnCandidate.term_english = some "neural network" ∧
    nnCandidate.term_korean = some "신경망" ∧
    (∃ t ∈ nnDataset,
      lowerL (t.english.getD "").data = lowerL "neural network".data ∨
      lowerL (t.korean.getD "").data = lowerL "신경망".data) ∧
    (check_duplicate_terms nnCandidate nnDataset).isSome = true :=
  ⟨rfl, rfl, by decide,
   (c7_duplicate_detection nnCandidate nnDataset).2 "neural network" "신경망"
     rfl rfl (by decide)⟩

lemma mkField_ok (cap : Option (List Char)) (v : String)
    (h : mkField cap = some v) : v ≠ "" ∧ v ≠ "_No response_" := by
  unfold mkField at h
  cases cap with
  | none => simp at h
  | some c =>
    simp only at h
    split_ifs at h with hc
    · injection h with h
      subst h
      rw [Bool.and_eq_true] at hc
      obtain ⟨h1, h2⟩ := hc
      refine ⟨?_, ?_⟩
      · intro he
        rw [Bool.not_eq_true'] at h1
        have hnil : (stripL c) = [] := by
          have := congrArg String.data he
          simpa using this
        rw [hnil] at h1
        simp at h1
      · exact bne_iff_ne.mp h2

/-- C8: the field extractor is total by construction — for every body it
returns a field mapping and checkbox lists; on the empty body it degrades
to the empty mapping, and any populated field value is non-empty and not
the `_No response_` placeholder. -/
theorem c8_parse_total_degrades (body : String) :
    parse_issue_body "" = ({} : IssueData) ∧
    (∀ o ∈ stringFieldsOf (parse_issue_body body), ∀ v, o = some v →
      v ≠ "" ∧ v ≠ "_No response_") := by
  refine ⟨by decide, ?_⟩
  intro o ho v hv
  simp only [stringFieldsOf, parse_issue_body, List.mem_cons, List.not_mem_nil,
    or_false] at ho
  rcases ho with rfl | rfl | rfl | rfl | rfl | rfl | rfl | rfl | rfl | rfl | rfl | rfl | rfl | rfl <;>
    exact mkField_ok _ _ hv

/-- C8 witness: a structured body yields the populated, non-placeholder
field `Neural Network`. -/
theorem c8_witness :
    some "Neural Network" ∈
      stringFieldsOf (parse_issue_body "영어 용어\nskip\nNeural Network") ∧
    "Neural Network" ≠ "" ∧ "Neural Network" ≠ "_No response_" :=
  ⟨by decide,
   (c8_parse_total_degrades "영어 용어\nskip\nNeural Network").2
     (some "Neural Network") (by decide) "Neural Network" rfl⟩

lemma findExistingAux_isSome (tid : String) :
    ∀ (l : List TermRec) (i : Nat), (∃ t ∈ l, t.id = some tid) →
      (findExistingAux tid i l).isSome = true := by
  intro l
  induction l with
  | nil => intro i h; simp at h
  | cons t ts ih =>
    intro i h
    simp only [findExistingAux]
    cases hb : (t.id == some tid) with
    | true => simp [hb]
    | false =>
      simp only [hb, Bool.false_eq_true, if_false]
      apply ih
      rcases h with ⟨t0, ht0, hid⟩
      rcases List.mem_cons.mp ht0 with rfl | hmem
      · exact absurd (beq_iff_eq.mpr hid) (by simp [hb])
      · exact ⟨t0, hmem, hid⟩

/-- C9: every dataset contents this script writes is sorted by the
case-folded English term, and the add action on an identifier that
already exists fails with an error before any write (the file is left
unchanged). -/
theorem c9_sorted_write_dedup_add :
    (∀ (action : TermAction) (idata : Option TermIssueData)
       (existing ts : List TermRec),
      processTermData action idata existing = .ok ts →
      ts.Sorted fun a b => sortKey a ≤ sortKey b) ∧
    (∀ (d : TermIssueData) (existing : List TermRec),
      (∃ t ∈ existing, t.id = some (termIdOf d)) →
      ∃ e, processTermData .add (some d) existing = .error e) := by
  constructor
  · intro action idata existing ts h
    haveI ht : IsTotal TermRec (fun a b => sortKey a ≤ sortKey b) :=
      ⟨fun a b => le_total _ _⟩
    haveI htr : IsTrans TermRec (fun a b => sortKey a ≤ sortKey b) :=
      ⟨fun a b c hab hbc => le_trans hab hbc⟩
    cases idata with
    | none => simp [processTermData] at h
    | some d =>
      cases action with
      | add =>
        cases hf : find_existing_term existing (termIdOf d) with
        | some p => simp [processTermData, hf] at h
        | none =>
          simp only [processTermData, hf, Except.ok.injEq] at h
          subst h
          exact List.sorted_insertionSort _ _
      | modify =>
        cases hf : find_existing_term existing (termIdOf d) with
        | none => simp [processTermData, hf] at h
        | some p =>
          simp only [processTermData, hf, Except.ok.injEq] at h
          subst h
          exact List.sorted_insertionSort _ _
  · intro d existing hex
    have hsome := findExistingAux_isSome (termIdOf d) existing 0 hex
    cases hf : find_existing_term existing (termIdOf d) with
    | none =>
      rw [find_existing_term] at hf
      rw [hf] at hsome
      simp at hsome
    | some p =>
      exact ⟨"⚠️ 용어 '" ++ termIdOf d ++ "'가 이미 존재합니다. 수정 모드를 사용하세요.",
        by simp only [processTermData, hf]⟩

/-- C9 witness: a fresh add writes the sorted two-element dataset, and an
id-colliding add errors out. -/
theorem c9_witness :
    processTermData .add (some dBeta) [recAlpha] =
      .ok (sort_terms_alphabetically ([recAlpha] ++ [create_term_object dBeta])) ∧
    (sort_terms_alphabetically ([recAlpha] ++ [create_term_object dBeta])).Sorted
      (fun a b => sortKey a ≤ sortKey b) ∧
    (∃ t ∈ [recAlpha], t.id = some (termIdOf dAlphaDup)) ∧
    (∃ e, processTermData .add (some dAlphaDup) [recAlpha] = .error e) :=
  ⟨rfl,
   c9_sorted_write_dedup_add.1 .add (some dBeta) [recAlpha] _ rfl,
   by decide,
   c9_sorted_write_dedup_add.2 dAlphaDup [recAlpha] (by decide)⟩

end KrGlossary
